import Mathlib

/-!
Shallow embedding of `zellij-utils/src/fred/sessions.rs` (the "fred sessions"
listing module of the zellij fork) and proofs about the spec's claims.

Modelling conventions:
- `PathBuf` values and their `to_string_lossy()` forms are modelled as `String`
  (the lossy conversion is the identity at this level of abstraction).
- `Duration` is modelled as a `Nat` (elapsed seconds); `humantime::format_duration`
  is an external crate function, so renderers take it as a parameter
  `fd : Nat → String`.
- `println!` based output is modelled as a `List String` of printed lines.
- `serde_json` output is modelled as an inductive `Json` value tree; derived
  `Serialize` impls emit struct fields in declaration order and `Option::None`
  as JSON `null`.
- External collaborators (`envs::get_session_name`, `get_sessions`,
  `get_resurrectable_sessions`, `resurrection_layout`) live in an `Env` record;
  `Result`/panicking `.unwrap()` is modelled with `Except Unit`.
-/

namespace ZellijSessions

/-- One pane action, mirroring `zellij_utils::input::layout::Run` as consumed by
`sessions.rs` (variants `Command`, `EditFile`, `Cwd`, `Plugin`). -/
inductive RunPluginOrAlias where
  | RunPlugin (location : String)
  | Alias (name : String)
  deriving Repr, DecidableEq

/-- `RunCommand`: program path, argument list, optional working directory. -/
structure RunCommand where
  command : String
  args : List String
  cwd : Option String
  deriving Repr, DecidableEq

/-- The `Run` tagged union. `EditFile` carries a path plus two further payload
components that `sessions.rs` matches with `_` (a line number and an optional
cwd). -/
inductive Run where
  | Command (rc : RunCommand)
  | EditFile (path : String) (lineNumber : Option Nat) (cwd : Option String)
  | Cwd (path : String)
  | Plugin (p : RunPluginOrAlias)
  deriving Repr, DecidableEq

/-- `TiledPaneLayout`, restricted to the two fields `sessions.rs` reads:
the node's optional `run` and its `children`. -/
structure TiledPaneLayout where
  run : Option Run
  children : List TiledPaneLayout
  deriving Repr

/-- `FloatingPaneLayout`, restricted to the field `sessions.rs` reads. -/
structure FloatingPaneLayout where
  run : Option Run
  deriving Repr

/-- A resolved `Layout`: its list of tabs, each a tab name, a tiled tree and
floating panes, exactly the triple destructured in `Session::new`. -/
structure Layout where
  tabs : List (Option String × TiledPaneLayout × List FloatingPaneLayout)

/-- Display-model `Tab` (`struct Tab` in `sessions.rs`). The `MyRun` newtype
wrapper only exists to attach the custom `Serialize` impl, so commands are
stored as bare `Run`s here. -/
structure Tab where
  name : Option String
  commands : List Run

/-- Display-model `Session` (`struct Session` in `sessions.rs`). -/
structure Session where
  name : String
  tabs : List Tab
  timestamp : Nat
  is_current : Bool
  is_active : Bool

/-- `collect_commands_recursive(tile, buf)` loops over `tile.children`; for each
child it pushes the child's `run` (when present) and then recurses into the
child. This is that loop, returning the pushed runs in order. Note that the
argument node's own `run` is only inspected when the node occurs as a child. -/
def collectChildren : List TiledPaneLayout → List Run
  | [] => []
  | c :: cs => c.run.toList ++ collectChildren c.children ++ collectChildren cs
termination_by cs => sizeOf cs
decreasing_by
  · obtain ⟨r, ch⟩ := c
    simp
    omega
  · simp

/-- `collect_commands_recursive` as called by `Tab::new` on the tab's root tile
(with an initially empty buffer). -/
def collect_commands_recursive (t : TiledPaneLayout) : List Run :=
  collectChildren t.children

/-- Reference definition (from the spec's words): full depth-first pre-order
emission over a tiled tree, emitting a node's own `Run` before descending into
its children at every node, the root included. -/
def preorderRuns (t : TiledPaneLayout) : List Run :=
  t.run.toList ++ collectChildren t.children

/-- Number of nodes of the tree list (nodes themselves and all descendants)
that carry a `Run`. -/
def runCountList : List TiledPaneLayout → Nat
  | [] => 0
  | c :: cs =>
      (if c.run.isSome then 1 else 0) + runCountList c.children + runCountList cs
termination_by cs => sizeOf cs
decreasing_by
  · obtain ⟨r, ch⟩ := c
    simp
    omega
  · simp

/-- Number of nodes of a tiled tree (root included) carrying a `Run`. -/
def runCount (t : TiledPaneLayout) : Nat :=
  (if t.run.isSome then 1 else 0) + runCountList t.children

/-- `Tab::new`: tiled-tree runs first (via `collect_commands_recursive`), then
floating panes' runs in order, dropping floating panes whose `run` is `None`
(`filter_map(|float| float.run)`). -/
def Tab.new (name : Option String) (tile : TiledPaneLayout)
    (floating_panes : List FloatingPaneLayout) : Tab :=
  let tile_commands := collect_commands_recursive tile
  let floating_commands := floating_panes.filterMap (fun f => f.run)
  { name := name, commands := tile_commands ++ floating_commands }

/-- `Session::new`: a missing layout yields no tabs; otherwise each layout tab
triple is turned into a display `Tab`. -/
def Session.new (name : String) (timestamp : Nat) (layout : Option Layout)
    (is_current : Bool) (is_active : Bool) : Session :=
  let tabs := match layout with
    | some l => l.tabs
    | none => []
  let tabs := tabs.map (fun t => Tab.new t.1 t.2.1 t.2.2)
  { name := name, tabs := tabs, timestamp := timestamp,
    is_current := is_current, is_active := is_active }

/-- The `format_title` closure of `display_run`: wrap the title in the magenta
bold escape sequence when formatting is on, otherwise return it unchanged. -/
def format_title (should_format : Bool) (title : String) : String :=
  if should_format then "\x1b[35;1m" ++ title ++ "\x1b[m" else title

/-- `display_plugin_or_alias`: a direct plugin renders its location's string
form, an alias renders its name. -/
def display_plugin_or_alias : RunPluginOrAlias → String
  | .RunPlugin location => location
  | .Alias name => name

/-- `display_run`: the shared per-variant formatting rule used by both text
renderers (and by the structured renderer's non-`Command` branch). -/
def display_run (run : Run) (should_format : Bool) : String :=
  match run with
  | .Command rc =>
      format_title should_format "Running:" ++ " " ++ rc.command ++ " " ++
        String.intercalate " " rc.args
  | .EditFile path _ _ =>
      format_title should_format "File:" ++ " " ++ path
  | .Cwd path =>
      format_title should_format "CWD:" ++ " " ++ path
  | .Plugin p =>
      format_title should_format "Plugin:" ++ " " ++ display_plugin_or_alias p

/-- Body of the per-tab loop in `print_session`: the colorized tab-name line
(cyan bold, placeholder `<Unnamed Tab>` when the name is absent) followed by
one single-space-indented colorized `display_run` line per command. -/
def tab_lines_colorized (tab : Tab) : List String :=
  ("\x1b[36;1m" ++ tab.name.getD "<Unnamed Tab>" ++ "\x1b[m" ++ ":")
    :: tab.commands.map (fun command => " " ++ display_run command true)

/-- `print_session`: the colorized renderer's lines for one session. -/
def print_session (fd : Nat → String) (session : Session) : List String :=
  let formatted_session_name := "\x1b[32;1m" ++ session.name ++ "\x1b[m"
  let timestamp :=
    "[Created " ++ "\x1b[35;1m" ++ fd session.timestamp ++ "\x1b[m" ++ " ago]"
  let current_text := if session.is_current then " (current)" else ""
  (formatted_session_name ++ " " ++ timestamp ++ current_text)
    :: (if session.tabs.isEmpty then ["  No running commands"]
        else session.tabs.flatMap tab_lines_colorized)
    ++ [""]

/-- Body of the per-tab loop in `print_unformatted_session`: the bare tab-name
line followed by one unindented plain `display_run` line per command. -/
def tab_lines_plain (tab : Tab) : List String :=
  (tab.name.getD "<Unnamed Tab>" ++ ":")
    :: tab.commands.map (fun command => display_run command false)

/-- `print_unformatted_session`: the plain renderer's lines for one session. -/
def print_unformatted_session (fd : Nat → String) (session : Session) :
    List String :=
  let current_text := if session.is_current then " (current)" else ""
  let timestamp := "Created " ++ fd session.timestamp ++ " ago"
  (session.name ++ " " ++ timestamp ++ current_text)
    :: (if session.tabs.isEmpty then ["No running commands"]
        else session.tabs.flatMap tab_lines_plain)

/-- The colorized branch of `list_sessions_long`'s output loop. -/
def render_sessions_colorized (fd : Nat → String) (sessions : List Session) :
    List String :=
  sessions.flatMap (print_session fd)

/-- The plain (`no_formatting`) branch of `list_sessions_long`'s output loop. -/
def render_sessions_plain (fd : Nat → String) (sessions : List Session) :
    List String :=
  sessions.flatMap (print_unformatted_session fd)

/-- The sorting step of `list_sessions_long`: ascending by `timestamp` when
`reverse` is set (`sort_unstable_by_key(timestamp)`), descending by default
(`sort_unstable_by_key(Reverse(timestamp))`). `sort_unstable` promises a sorted
permutation with no guarantee on ties, which `mergeSort` satisfies. -/
def sortSessions (reverse : Bool) (sessions : List Session) : List Session :=
  if reverse then
    sessions.mergeSort (fun a b => a.timestamp ≤ b.timestamp)
  else
    sessions.mergeSort (fun a b => b.timestamp ≤ a.timestamp)

/-- JSON value trees, the target of the structured renderer. -/
inductive Json where
  | str (s : String)
  | null
  | arr (elems : List Json)
  | obj (fields : List (String × Json))

/-- The fields of a JSON object (empty for non-objects). -/
def jsonFields : Json → List (String × Json)
  | .obj fs => fs
  | _ => []

/-- `struct MyCommand` of `sessions.rs`: the derived-`Serialize` shape used for
`Run::Command`, two string fields `command` and `cwd` in that order. -/
structure MyCommand where
  command : String
  cwd : String
  deriving Repr, DecidableEq

/-- Derived serialization of `MyCommand`. -/
def MyCommand.serializeJson (mc : MyCommand) : Json :=
  .obj [("command", Json.str mc.command), ("cwd", Json.str mc.cwd)]

/-- The custom `Serialize` impl for `MyRun`: a `Command` becomes a `MyCommand`
object whose `command` string is the program, one space, then the space-joined
args, and whose `cwd` string is the directory or `""` when absent; every other
variant is serialized as the plain (uncolorized) `display_run` string. -/
def MyRun.serializeJson (run : Run) : Json :=
  match run with
  | .Command rc =>
      let command := rc.command ++ " " ++ String.intercalate " " rc.args
      let cwd := match rc.cwd with
        | some c => c
        | none => ""
      MyCommand.serializeJson { command := command, cwd := cwd }
  | other => .str (display_run other false)

/-- Derived serialization of `Tab`: fields in declaration order, with the
`Option` name field emitted as `null` when `None` (serde's default). -/
def Tab.serializeJson (t : Tab) : Json :=
  .obj [("name", match t.name with
          | some n => Json.str n
          | none => Json.null),
        ("commands", Json.arr (t.commands.map MyRun.serializeJson))]

/-- Strict decoder for the `MyCommand` object shape: accepts exactly an object
with a string `command` field and a string `cwd` field, in that order. -/
def decodeMyCommand : Json → Option MyCommand
  | .obj [("command", .str c), ("cwd", .str w)] => some { command := c, cwd := w }
  | _ => none

/-- Environment of external collaborators consumed by `collect_sessions`. -/
structure Env where
  currentName : Except Unit String
  activeSessions : Except Unit (List (String × Nat))
  resurrectable : List (String × Nat)
  layouts : String → Except Unit (Option Layout)

/-- The per-session loop of `collect_sessions`: resolve the layout (a resolver
error aborts, mirroring `.unwrap()`), then build the `Session` with
`is_current = (name == curr)` and `is_active = name ∈ active names`. -/
def collect_sessions_go (curr : String) (active_session_names : List String)
    (layouts : String → Except Unit (Option Layout)) :
    List (String × Nat) → Except Unit (List Session)
  | [] => .ok []
  | (name, timestamp) :: rest =>
      match layouts name with
      | .error u => .error u
      | .ok layout =>
          match collect_sessions_go curr active_session_names layouts rest with
          | .error u => .error u
          | .ok tail =>
              .ok (Session.new name timestamp layout (name == curr)
                     (active_session_names.contains name) :: tail)

/-- `collect_sessions`: current-name lookup failure is absorbed as `""`
(`unwrap_or_else`), registry failure aborts (`unwrap`), then every
resurrectable session is built. -/
def collect_sessions (env : Env) : Except Unit (List Session) :=
  let curr_session := match env.currentName with
    | .ok n => n
    | .error _ => ""
  match env.activeSessions with
  | .error u => .error u
  | .ok active =>
      let active_session_names := active.map Prod.fst
      collect_sessions_go curr_session active_session_names env.layouts
        env.resurrectable

/-- Drop characters up to and including the next `m`, the terminator of the
escape sequences this module emits. -/
def dropThroughM : List Char → List Char
  | [] => []
  | c :: rest => if c = 'm' then rest else dropThroughM rest

/-- Remove ESC-initiated, `m`-terminated escape sequences from a character
list. -/
def stripEscAux : List Char → List Char
  | [] => []
  | c :: rest =>
      if c = '\x1b' then stripEscAux (dropThroughM rest)
      else c :: stripEscAux rest
termination_by l => l.length
decreasing_by
  · have h : ∀ l : List Char, (dropThroughM l).length ≤ l.length := by
      intro l
      induction l with
      | nil => simp [dropThroughM]
      | cons d ds ih =>
        simp only [dropThroughM]
        split
        · simp
        · simp
          omega
    have := h rest
    simp
    omega
  · simp

/-- Remove the ANSI color escape sequences used by the colorized renderer. -/
def stripEscapes (s : String) : String :=
  ⟨stripEscAux s.data⟩

/-- Remove leading spaces (the renderers' indentation) from a line. -/
def dedent (s : String) : String :=
  ⟨s.data.dropWhile (fun c => c = ' ')⟩

/-- A string containing no ESC character, so that escape-stripping leaves it
untouched. -/
abbrev escFree (s : String) : Prop :=
  '\x1b' ∉ s.data

/-- Cleanliness conditions on a tab under which escape-stripping and
de-indenting colorized lines is lossless: the displayed tab name does not start
with a space and is escape-free, and each command's plain rendering is
escape-free. -/
abbrev TabClean (t : Tab) : Prop :=
  (t.name.getD "<Unnamed Tab>").data.head? ≠ some ' '
    ∧ escFree (t.name.getD "<Unnamed Tab>")
    ∧ ∀ r ∈ t.commands, escFree (display_run r false)

/-- Formalization of the claim that the plain renderer's output is the
colorized renderer's output with escape sequences stripped and indentation
removed, line for line (blank separator line included). -/
def plainIsStrippedColorized (fd : Nat → String) (sessions : List Session) :
    Prop :=
  render_sessions_plain fd sessions
    = (render_sessions_colorized fd sessions).map
        (fun l => dedent (stripEscapes l))

/-- Environment whose active-session registry lookup fails. -/
def envRegistryFails : Env :=
  { currentName := Except.ok "x", activeSessions := Except.error (),
    resurrectable := [("a", 1)], layouts := fun _ => Except.ok none }

/-- Environment whose current-session-name lookup fails and whose only
resurrectable session is literally named the empty string. -/
def envEmptyName : Env :=
  { currentName := Except.error (), activeSessions := Except.ok [],
    resurrectable := [("", 5)], layouts := fun _ => Except.ok none }

/-- Environment whose current-session-name lookup fails, with one ordinarily
named resurrectable session. -/
def envNamedA : Env :=
  { currentName := Except.error (), activeSessions := Except.ok [],
    resurrectable := [("a", 1)], layouts := fun _ => Except.ok none }

/-- Environment in which layout resolution succeeds but yields no layout. -/
def envNoLayout : Env :=
  { currentName := Except.ok "b", activeSessions := Except.ok [],
    resurrectable := [("b", 2)], layouts := fun _ => Except.ok none }

/-- Concrete session used to exercise the renderer correspondence. -/
def wSession : Session :=
  { name := "work",
    tabs := [{ name := some "main",
               commands := [Run.Command
                 { command := "vim", args := ["notes.md"],
                   cwd := some "/home/u" }] }],
    timestamp := 3600, is_current := true, is_active := false }

/-- Concrete duration formatter used in witnesses. -/
def wFd : Nat → String := fun _ => "1h"

theorem collectChildren_nil : collectChildren [] = [] := by
  rw [collectChildren]

theorem collectChildren_cons (c : TiledPaneLayout) (cs : List TiledPaneLayout) :
    collectChildren (c :: cs)
      = c.run.toList ++ collectChildren c.children ++ collectChildren cs := by
  rw [collectChildren]

theorem runCountList_nil : runCountList [] = 0 := by
  rw [runCountList]

theorem runCountList_cons (c : TiledPaneLayout) (cs : List TiledPaneLayout) :
    runCountList (c :: cs)
      = (if c.run.isSome then 1 else 0) + runCountList c.children
          + runCountList cs := by
  rw [runCountList]

theorem collectChildren_eq_flatMap (cs : List TiledPaneLayout) :
    collectChildren cs = cs.flatMap preorderRuns := by
  induction cs with
  | nil => simp [collectChildren_nil]
  | cons c cs ih =>
    simp [collectChildren_cons, List.flatMap_cons, ih, preorderRuns,
      List.append_assoc]

theorem collectChildren_length (cs : List TiledPaneLayout) :
    (collectChildren cs).length = runCountList cs := by
  induction cs using collectChildren.induct with
  | case1 => simp [collectChildren_nil, runCountList_nil]
  | case2 c cs ih1 ih2 =>
    simp [collectChildren_cons, runCountList_cons, ih1, ih2]
    cases c.run <;> simp
    omega

/-- Claim C1 (amended): the Layout Flattener emits the Run values in
depth-first pre-order over the children of the tiled tree's root — a node's
Run is appended before descending into its children at every node except the
root, whose own Run is never emitted — followed by the floating panes' Runs in
declaration order with run-less floating panes dropped; the output length is
the number of non-root tiled nodes carrying a Run plus the number of floating
panes carrying a Run. -/
theorem flattener_preorder_excluding_root (name : Option String)
    (tile : TiledPaneLayout) (floating_panes : List FloatingPaneLayout) :
    (Tab.new name tile floating_panes).commands
      = tile.children.flatMap preorderRuns
          ++ floating_panes.filterMap (fun f => f.run)
    ∧ (Tab.new name tile floating_panes).commands.length
      = runCountList tile.children
          + (floating_panes.filterMap (fun f => f.run)).length
    ∧ tile.run.toList ++ collect_commands_recursive tile = preorderRuns tile := by
  refine ⟨?_, ?_, ?_⟩
  · simp [Tab.new, collect_commands_recursive, collectChildren_eq_flatMap]
  · simp [Tab.new, collect_commands_recursive, collectChildren_length]
  · simp [preorderRuns, collect_commands_recursive]

/-- Claim C1 counterexample: on a root node that itself carries a Run and has
no children, the flattener emits nothing, while pre-order emission over every
node including the root would emit that Run; the output length (0) differs
from the number of nodes carrying a Run (1). -/
theorem flattener_root_run_skipped_cx :
    (Tab.new none { run := some (Run.Cwd "/"), children := [] } []).commands = []
    ∧ preorderRuns { run := some (Run.Cwd "/"), children := [] }
        = [Run.Cwd "/"]
    ∧ runCount { run := some (Run.Cwd "/"), children := [] } = 1
    ∧ (Tab.new none { run := some (Run.Cwd "/"), children := [] } []).commands.length
        ≠ runCount { run := some (Run.Cwd "/"), children := [] } := by
  refine ⟨?_, ?_, ?_, ?_⟩ <;>
    simp [Tab.new, collect_commands_recursive, collectChildren_nil,
      preorderRuns, runCount, runCountList_nil, Option.toList]

/-- Claim C2: structured-rendering a Command run and decoding it back yields
exactly an object whose `command` field is the program followed by the
space-joined args and whose `cwd` field is the cwd's string form, or the empty
string (a present string field, not null and not omitted) when the cwd is
absent; every non-Command variant is encoded as the single descriptive
(uncolorized) `display_run` string. -/
theorem command_serialization_round_trip (rc : RunCommand) :
    MyRun.serializeJson (.Command rc)
      = Json.obj
          [("command",
            Json.str (rc.command ++ " " ++ String.intercalate " " rc.args)),
           ("cwd", Json.str (rc.cwd.getD ""))]
    ∧ decodeMyCommand (MyRun.serializeJson (.Command rc))
      = some { command := rc.command ++ " " ++ String.intercalate " " rc.args,
               cwd := rc.cwd.getD "" }
    ∧ (∀ path ln c, MyRun.serializeJson (.EditFile path ln c)
        = Json.str (display_run (.EditFile path ln c) false))
    ∧ (∀ path, MyRun.serializeJson (.Cwd path)
        = Json.str (display_run (.Cwd path) false))
    ∧ (∀ p, MyRun.serializeJson (.Plugin p)
        = Json.str (display_run (.Plugin p) false)) := by
  refine ⟨?_, ?_, fun path ln c => rfl, fun path => rfl, fun p => rfl⟩
  · cases h : rc.cwd <;>
      simp [MyRun.serializeJson, MyCommand.serializeJson, h]
  · cases h : rc.cwd <;>
      simp [MyRun.serializeJson, MyCommand.serializeJson, decodeMyCommand, h]

/-- Claim C5: the Sorter produces an ascending total order by timestamp
(oldest first) when reverse is requested and a descending one (newest first)
by default, and in both modes the result is a permutation of the input; ties
are not constrained beyond sortedness. -/
theorem sorter_orders_by_timestamp (sessions : List Session) :
    List.Sorted (fun a b : Session => a.timestamp ≤ b.timestamp)
        (sortSessions true sessions)
    ∧ (sortSessions true sessions).Perm sessions
    ∧ List.Sorted (fun a b : Session => b.timestamp ≤ a.timestamp)
        (sortSessions false sessions)
    ∧ (sortSessions false sessions).Perm sessions := by
  refine ⟨?_, ?_, ?_, ?_⟩
  · have h := @List.sorted_mergeSort Session
      (fun a b : Session => decide (a.timestamp ≤ b.timestamp))
      (fun a b c hab hbc => by
        simp only [decide_eq_true_eq] at hab hbc ⊢
        omega)
      (fun a b => by
        simp only [Bool.or_eq_true, decide_eq_true_eq]
        omega)
      sessions
    simp only [sortSessions, if_true]
    exact h.imp (fun hab => by simpa using hab)
  · simp only [sortSessions, if_true]
    exact List.mergeSort_perm sessions _
  · have h := @List.sorted_mergeSort Session
      (fun a b : Session => decide (b.timestamp ≤ a.timestamp))
      (fun a b c hab hbc => by
        simp only [decide_eq_true_eq] at hab hbc ⊢
        omega)
      (fun a b => by
        simp only [Bool.or_eq_true, decide_eq_true_eq]
        omega)
      sessions
    simp only [sortSessions, if_false]
    exact h.imp (fun hab => by simpa using hab)
  · simp only [sortSessions, if_false]
    exact List.mergeSort_perm sessions _

/-- Claim C6: `display_run` renders every Run variant as its fixed label
followed by its payload — Command as "Running:" with the program and
space-joined args, EditFile as "File:" with the path, Cwd as "CWD:" with the
path, and Plugin as "Plugin:" with the reference resolved to the direct
location's string form or the alias name — where the label is wrapped in the
magenta escape pair exactly when formatting is on. -/
theorem display_run_fixed_labels (sf : Bool) (rc : RunCommand) (path : String)
    (ln : Option Nat) (c : Option String) (p : RunPluginOrAlias)
    (loc al title : String) :
    display_run (.Command rc) sf
      = format_title sf "Running:" ++ " " ++ rc.command ++ " "
          ++ String.intercalate " " rc.args
    ∧ display_run (.EditFile path ln c) sf
        = format_title sf "File:" ++ " " ++ path
    ∧ display_run (.Cwd path) sf = format_title sf "CWD:" ++ " " ++ path
    ∧ display_run (.Plugin p) sf
        = format_title sf "Plugin:" ++ " " ++ display_plugin_or_alias p
    ∧ display_plugin_or_alias (.RunPlugin loc) = loc
    ∧ display_plugin_or_alias (.Alias al) = al
    ∧ format_title true title = "\x1b[35;1m" ++ title ++ "\x1b[m"
    ∧ format_title false title = title :=
  ⟨rfl, rfl, rfl, rfl, rfl, rfl, rfl, rfl⟩

/-- Claim C10: for a Command run with an empty args list, both the
text-rendered line and the structured `command` string end in a trailing space
after the program name, since both are built as program, one space, then the
space-joined args. -/
theorem empty_args_trailing_space (prog : String) (cwd : Option String)
    (sf : Bool) :
    display_run (.Command { command := prog, args := [], cwd := cwd }) sf
      = format_title sf "Running:" ++ " " ++ prog ++ " "
    ∧ MyRun.serializeJson
        (.Command { command := prog, args := [], cwd := cwd })
      = Json.obj [("command", Json.str (prog ++ " ")),
                  ("cwd", Json.str (cwd.getD ""))] := by
  constructor
  · simp [display_run, String.intercalate]
  · cases cwd <;>
      simp [MyRun.serializeJson, MyCommand.serializeJson, String.intercalate]

theorem collect_sessions_go_is_current (curr : String)
    (actives : List String)
    (layouts : String → Except Unit (Option Layout)) :
    ∀ (rs : List (String × Nat)) (l : List Session),
      collect_sessions_go curr actives layouts rs = Except.ok l →
      ∀ s ∈ l, s.is_current = (s.name == curr) := by
  intro rs
  induction rs with
  | nil =>
    intro l h s hs
    simp only [collect_sessions_go] at h
    injection h with h
    subst h
    simp at hs
  | cons p rest ih =>
    intro l h s hs
    obtain ⟨name, ts⟩ := p
    simp only [collect_sessions_go] at h
    cases hl : layouts name with
    | error u => rw [hl] at h; cases h
    | ok layout =>
      rw [hl] at h
      cases hg : collect_sessions_go curr actives layouts rest with
      | error u => rw [hg] at h; cases h
      | ok tail =>
        rw [hg] at h
        injection h with h
        subst h
        rcases List.mem_cons.mp hs with h1 | h2
        · subst h1
          simp [Session.new]
        · exact ih tail hg s h2

theorem collect_sessions_go_all_ok (curr : String) (actives : List String)
    (layouts : String → Except Unit (Option Layout))
    (h : ∀ m, layouts m = Except.ok none) :
    ∀ rs : List (String × Nat),
      collect_sessions_go curr actives layouts rs
        = Except.ok (rs.map (fun p =>
            Session.new p.1 p.2 none (p.1 == curr) (actives.contains p.1))) := by
  intro rs
  induction rs with
  | nil => simp [collect_sessions_go]
  | cons p rest ih =>
    obtain ⟨name, ts⟩ := p
    simp [collect_sessions_go, h name, ih]

/-- Claim C4 (amended): for a tab whose name is None, both text renderers
print the placeholder label `<Unnamed Tab>` in place of the name, while the
structured renderer serializes the name field as null — the field stays
present, holding null rather than the placeholder. -/
theorem unnamed_tab_placeholder (cmds : List Run) :
    (tab_lines_colorized { name := none, commands := cmds }).head?
      = some ("\x1b[36;1m" ++ "<Unnamed Tab>" ++ "\x1b[m" ++ ":")
    ∧ (tab_lines_plain { name := none, commands := cmds }).head?
      = some ("<Unnamed Tab>" ++ ":")
    ∧ Tab.serializeJson { name := none, commands := cmds }
      = Json.obj [("name", Json.null),
                  ("commands", Json.arr (cmds.map MyRun.serializeJson))] :=
  ⟨rfl, rfl, rfl⟩

/-- Claim C4 counterexample: the structured renderer does not omit an absent
tab name — the serialized tab still carries a "name" field, holding null. -/
theorem tab_name_field_not_omitted_cx :
    ("name", Json.null)
      ∈ jsonFields (Tab.serializeJson { name := none, commands := [] }) := by
  simp [Tab.serializeJson, jsonFields]

/-- Claim C7 (amended): a failure of the active-sessions registry lookup
aborts the whole listing, whereas a failure of the current-session-name lookup
is absorbed as an empty current name — so a session is then marked current
exactly when its name is the empty string — and is never propagated as an
error. -/
theorem collect_sessions_error_asymmetry (env : Env) (u : Unit) :
    (env.activeSessions = Except.error u →
      collect_sessions env = Except.error u)
    ∧ (env.currentName = Except.error u →
        collect_sessions env
          = collect_sessions { env with currentName := Except.ok "" })
    ∧ (env.currentName = Except.error u →
        ∀ l, collect_sessions env = Except.ok l →
          ∀ s ∈ l, s.is_current = (s.name == "")) := by
  refine ⟨?_, ?_, ?_⟩
  · intro h
    simp [collect_sessions, h]
  · intro h
    simp [collect_sessions, h]
  · intro h l hok s hs
    cases hact : env.activeSessions with
    | error v => simp [collect_sessions, h, hact] at hok
    | ok active =>
      simp only [collect_sessions, h, hact] at hok
      exact collect_sessions_go_is_current "" _ _ env.resurrectable l hok s hs

/-- Claim C7 witness: the registry-failure environment aborts; the
name-lookup-failure environment behaves as if the current name were empty, and
its ordinarily named session is not marked current. -/
theorem collect_sessions_error_asymmetry_witness :
    collect_sessions envRegistryFails = Except.error ()
    ∧ collect_sessions envNamedA
        = collect_sessions { envNamedA with currentName := Except.ok "" }
    ∧ (Session.new "a" 1 none false false).is_current
        = ((Session.new "a" 1 none false false).name == "") := by
  refine ⟨(collect_sessions_error_asymmetry envRegistryFails ()).1 rfl,
          (collect_sessions_error_asymmetry envNamedA ()).2.1 rfl, ?_⟩
  exact (collect_sessions_error_asymmetry envNamedA ()).2.2 rfl
    [Session.new "a" 1 none false false] rfl
    (Session.new "a" 1 none false false) (by simp)

/-- Claim C7 counterexample: with the current-name lookup failing, the session
literally named the empty string is marked current — refuting "so no session
is marked current". -/
theorem empty_named_session_marked_current_cx :
    envEmptyName.currentName = Except.error ()
    ∧ (collect_sessions envEmptyName).map (fun l => l.map Session.is_current)
        = Except.ok [true] :=
  ⟨rfl, rfl⟩

/-- Claim C9: when the current-session-name lookup fails, the builder marks
`is_current` true exactly for sessions whose name is the empty string. -/
theorem is_current_iff_empty_name_on_lookup_failure (env : Env) (u : Unit)
    (h : env.currentName = Except.error u) (l : List Session)
    (hok : collect_sessions env = Except.ok l) :
    ∀ s ∈ l, s.is_current = (s.name == "") := by
  intro s hs
  cases hact : env.activeSessions with
  | error v => simp [collect_sessions, h, hact] at hok
  | ok active =>
    simp only [collect_sessions, h, hact] at hok
    exact collect_sessions_go_is_current "" _ _ env.resurrectable l hok s hs

/-- Claim C9 witness: a resurrectable session literally named the empty string
is flagged as the current session when the lookup fails. -/
theorem is_current_iff_empty_name_witness :
    (Session.new "" 5 none true false).is_current = true := by
  have h := is_current_iff_empty_name_on_lookup_failure envEmptyName () rfl
    [Session.new "" 5 none true false] rfl
    (Session.new "" 5 none true false) (by simp)
  rw [h]
  rfl

/-- Claim C8: a resurrectable session whose layout resolution yields no layout
is still included in the collection with an empty tab sequence (never omitted,
no error), and both text renderers then print the fixed "no running commands"
notice instead of any tab output. -/
theorem missing_layout_empty_tabs (fd : Nat → String) (env : Env)
    (acts : List (String × Nat))
    (hact : env.activeSessions = Except.ok acts)
    (hlay : ∀ m, env.layouts m = Except.ok none) :
    (∃ l, collect_sessions env = Except.ok l
        ∧ l.map Session.name = env.resurrectable.map Prod.fst
        ∧ ∀ s ∈ l, s.tabs = [])
    ∧ (∀ (n : String) (ts : Nat) (cur act : Bool),
        (Session.new n ts none cur act).tabs = [])
    ∧ (∀ s : Session, s.tabs = [] →
        (print_session fd s).drop 1 = ["  No running commands", ""]
        ∧ (print_unformatted_session fd s).drop 1
            = ["No running commands"]) := by
  refine ⟨?_, ?_, ?_⟩
  · simp only [collect_sessions, hact]
    rw [collect_sessions_go_all_ok _ _ _ hlay]
    refine ⟨_, rfl, ?_, ?_⟩
    · rw [List.map_map]
      apply List.map_congr_left
      intro p _
      simp [Session.new]
    · intro s hs
      rw [List.mem_map] at hs
      obtain ⟨p, _, rfl⟩ := hs
      simp [Session.new]
  · intro n ts cur act
    simp [Session.new]
  · intro s hs
    constructor
    · simp [print_session, hs]
    · simp [print_unformatted_session, hs]

/-- Claim C8 witness: in the concrete no-layout environment the single session
survives with empty tabs and the renderers print the notice. -/
theorem missing_layout_empty_tabs_witness :
    (collect_sessions envNoLayout).map (fun l => l.map Session.name)
      = Except.ok ["b"]
    ∧ (Session.new "b" 2 none true false).tabs = []
    ∧ (print_session wFd (Session.new "b" 2 none true false)).drop 1
        = ["  No running commands", ""]
    ∧ (print_unformatted_session wFd (Session.new "b" 2 none true false)).drop 1
        = ["No running commands"] := by
  have h := missing_layout_empty_tabs wFd envNoLayout [] rfl (fun m => rfl)
  obtain ⟨⟨l, hok, hnames, htabs⟩, hnew, hrend⟩ := h
  refine ⟨?_, hnew "b" 2 true false, (hrend _ (hnew "b" 2 true false)).1,
          (hrend _ (hnew "b" 2 true false)).2⟩
  rw [hok]
  show Except.ok (l.map Session.name) = Except.ok ["b"]
  rw [hnames]
  rfl

theorem stripEscAux_nil : stripEscAux [] = [] := by
  rw [stripEscAux]

theorem stripEscAux_cons (c : Char) (rest : List Char) :
    stripEscAux (c :: rest)
      = if c = '\x1b' then stripEscAux (dropThroughM rest)
        else c :: stripEscAux rest := by
  rw [stripEscAux]

theorem stripEscAux_esc (rest : List Char) :
    stripEscAux ('\x1b' :: rest) = stripEscAux (dropThroughM rest) := by
  rw [stripEscAux_cons]
  simp

theorem dropThroughM_no_m :
    ∀ l1 : List Char, 'm' ∉ l1 →
      ∀ l2, dropThroughM (l1 ++ 'm' :: l2) = l2 := by
  intro l1
  induction l1 with
  | nil =>
    intro _ l2
    simp [dropThroughM]
  | cons c cs ih =>
    intro h l2
    have hc : c ≠ 'm' := by
      intro e
      exact h (by simp [e])
    simp only [List.cons_append, dropThroughM, if_neg hc]
    exact ih (fun hm => h (List.mem_cons_of_mem _ hm)) l2

theorem stripEscAux_escFree_append :
    ∀ l1 l2 : List Char, '\x1b' ∉ l1 →
      stripEscAux (l1 ++ l2) = l1 ++ stripEscAux l2 := by
  intro l1
  induction l1 with
  | nil =>
    intro l2 _
    simp
  | cons c cs ih =>
    intro l2 h
    have hc : c ≠ '\x1b' := by
      intro e
      exact h (by simp [e])
    simp only [List.cons_append]
    rw [stripEscAux_cons, if_neg hc,
      ih l2 (fun hm => h (List.mem_cons_of_mem _ hm))]

theorem stripEscAux_escFree (l : List Char) (h : '\x1b' ∉ l) :
    stripEscAux l = l := by
  have e := stripEscAux_escFree_append l [] h
  simpa [stripEscAux_nil] using e

theorem stripEscapes_append (s t : String) (h : escFree s) :
    stripEscapes (s ++ t) = s ++ stripEscapes t := by
  apply String.ext
  show stripEscAux (s ++ t).data = (s ++ stripEscapes t).data
  rw [String.data_append, String.data_append]
  show stripEscAux (s.data ++ t.data) = s.data ++ stripEscAux t.data
  exact stripEscAux_escFree_append s.data t.data h

theorem stripEscapes_of_escFree (s : String) (h : escFree s) :
    stripEscapes s = s := by
  apply String.ext
  exact stripEscAux_escFree s.data h

theorem stripEscapes_esc_seq (body s : String) (h : 'm' ∉ body.data) :
    stripEscapes ("\x1b" ++ body ++ "m" ++ s) = stripEscapes s := by
  apply String.ext
  show stripEscAux ("\x1b" ++ body ++ "m" ++ s).data = stripEscAux s.data
  have hdata : ("\x1b" ++ body ++ "m" ++ s).data
      = '\x1b' :: (body.data ++ 'm' :: s.data) := by
    rw [String.data_append, String.data_append, String.data_append]
    rw [show "\x1b".data = ['\x1b'] from rfl, show "m".data = ['m'] from rfl]
    simp
  rw [hdata, stripEscAux_esc, dropThroughM_no_m body.data h s.data]

theorem stripEscapes_green (s : String) :
    stripEscapes ("\x1b[32;1m" ++ s) = stripEscapes s := by
  rw [show ("\x1b[32;1m" : String) = "\x1b" ++ "[32;1" ++ "m" from rfl]
  exact stripEscapes_esc_seq "[32;1" s (by decide)

theorem stripEscapes_magenta (s : String) :
    stripEscapes ("\x1b[35;1m" ++ s) = stripEscapes s := by
  rw [show ("\x1b[35;1m" : String) = "\x1b" ++ "[35;1" ++ "m" from rfl]
  exact stripEscapes_esc_seq "[35;1" s (by decide)

theorem stripEscapes_cyan (s : String) :
    stripEscapes ("\x1b[36;1m" ++ s) = stripEscapes s := by
  rw [show ("\x1b[36;1m" : String) = "\x1b" ++ "[36;1" ++ "m" from rfl]
  exact stripEscapes_esc_seq "[36;1" s (by decide)

theorem stripEscapes_reset (s : String) :
    stripEscapes ("\x1b[m" ++ s) = stripEscapes s := by
  rw [show ("\x1b[m" : String) = "\x1b" ++ "[" ++ "m" from rfl]
  exact stripEscapes_esc_seq "[" s (by decide)

theorem data_head?_append (a b : String) :
    (a ++ b).data.head? = (a.data.head?).or (b.data.head?) := by
  rw [String.data_append]
  exact List.head?_append

theorem dedent_of_head_ne_space (s : String) (h : s.data.head? ≠ some ' ') :
    dedent s = s := by
  apply String.ext
  show s.data.dropWhile (fun c => c = ' ') = s.data
  cases hd : s.data with
  | nil => simp
  | cons c cs =>
    have hc : c ≠ ' ' := by
      intro e
      exact h (by rw [hd, e, List.head?_cons])
    simp [List.dropWhile_cons, hc]

theorem dedent_space (s : String) : dedent (" " ++ s) = dedent s := by
  apply String.ext
  show (" " ++ s).data.dropWhile (fun c => c = ' ')
      = s.data.dropWhile (fun c => c = ' ')
  rw [String.data_append, show " ".data = [' '] from rfl]
  simp [List.dropWhile_cons]

theorem display_run_false_head_ne_space (r : Run) :
    (display_run r false).data.head? ≠ some ' ' := by
  cases r with
  | Command rc =>
    rw [show (display_run (.Command rc) false).data.head? = some 'R' from rfl]
    simp
  | EditFile path ln c =>
    rw [show (display_run (.EditFile path ln c) false).data.head?
        = some 'F' from rfl]
    simp
  | Cwd path =>
    rw [show (display_run (.Cwd path) false).data.head? = some 'C' from rfl]
    simp
  | Plugin p =>
    rw [show (display_run (.Plugin p) false).data.head? = some 'P' from rfl]
    simp

theorem escFree_append (a b : String) :
    escFree (a ++ b) ↔ (escFree a ∧ escFree b) := by
  simp [escFree, String.data_append, not_or]

theorem strip_colored_label (lbl rest : String) (hl : escFree lbl)
    (hrest : escFree rest) :
    stripEscapes ("\x1b[35;1m" ++ (lbl ++ ("\x1b[m" ++ rest)))
      = lbl ++ rest := by
  rw [stripEscapes_magenta, stripEscapes_append lbl _ hl, stripEscapes_reset,
    stripEscapes_of_escFree rest hrest]

theorem stripEscapes_display_run (r : Run)
    (h : escFree (display_run r false)) :
    stripEscapes (display_run r true) = display_run r false := by
  cases r with
  | Command rc =>
    have hfalse : display_run (.Command rc) false
        = "Running:" ++ (" " ++ (rc.command ++ (" "
            ++ String.intercalate " " rc.args))) := by
      simp only [display_run, format_title, Bool.false_eq_true, if_false,
        String.append_assoc]
    have htrue : display_run (.Command rc) true
        = "\x1b[35;1m" ++ ("Running:" ++ ("\x1b[m" ++ (" " ++ (rc.command
            ++ (" " ++ String.intercalate " " rc.args))))) := by
      simp only [display_run, format_title, if_true, String.append_assoc]
    rw [hfalse] at h
    rw [htrue, strip_colored_label _ _ (by decide) ((escFree_append _ _).mp h).2,
      hfalse]
  | EditFile path ln c =>
    have hfalse : display_run (.EditFile path ln c) false
        = "File:" ++ (" " ++ path) := by
      simp only [display_run, format_title, Bool.false_eq_true, if_false,
        String.append_assoc]
    have htrue : display_run (.EditFile path ln c) true
        = "\x1b[35;1m" ++ ("File:" ++ ("\x1b[m" ++ (" " ++ path))) := by
      simp only [display_run, format_title, if_true, String.append_assoc]
    rw [hfalse] at h
    rw [htrue, strip_colored_label _ _ (by decide) ((escFree_append _ _).mp h).2,
      hfalse]
  | Cwd path =>
    have hfalse : display_run (.Cwd path) false
        = "CWD:" ++ (" " ++ path) := by
      simp only [display_run, format_title, Bool.false_eq_true, if_false,
        String.append_assoc]
    have htrue : display_run (.Cwd path) true
        = "\x1b[35;1m" ++ ("CWD:" ++ ("\x1b[m" ++ (" " ++ path))) := by
      simp only [display_run, format_title, if_true, String.append_assoc]
    rw [hfalse] at h
    rw [htrue, strip_colored_label _ _ (by decide) ((escFree_append _ _).mp h).2,
      hfalse]
  | Plugin p =>
    have hfalse : display_run (.Plugin p) false
        = "Plugin:" ++ (" " ++ display_plugin_or_alias p) := by
      simp only [display_run, format_title, Bool.false_eq_true, if_false,
        String.append_assoc]
    have htrue : display_run (.Plugin p) true
        = "\x1b[35;1m" ++ ("Plugin:" ++ ("\x1b[m"
            ++ (" " ++ display_plugin_or_alias p))) := by
      simp only [display_run, format_title, if_true, String.append_assoc]
    rw [hfalse] at h
    rw [htrue, strip_colored_label _ _ (by decide) ((escFree_append _ _).mp h).2,
      hfalse]

theorem tab_lines_strip (t : Tab) (hc : TabClean t) :
    (tab_lines_colorized t).map (fun l => dedent (stripEscapes l))
      = tab_lines_plain t := by
  obtain ⟨h1, h2, h3⟩ := hc
  unfold tab_lines_colorized tab_lines_plain
  rw [List.map_cons]
  congr 1
  · have e1 : "\x1b[36;1m" ++ t.name.getD "<Unnamed Tab>" ++ "\x1b[m" ++ ":"
        = "\x1b[36;1m" ++ (t.name.getD "<Unnamed Tab>" ++ ("\x1b[m" ++ ":")) := by
      simp [String.append_assoc]
    rw [e1, stripEscapes_cyan, stripEscapes_append _ _ h2, stripEscapes_reset,
      stripEscapes_of_escFree ":" (by decide)]
    apply dedent_of_head_ne_space
    rw [data_head?_append]
    cases hd : (t.name.getD "<Unnamed Tab>").data.head? with
    | none => simp [Option.or]
    | some c =>
      have hcne : c ≠ ' ' := by
        intro e
        exact h1 (by rw [hd, e])
      simp [Option.or, hcne]
  · rw [List.map_map]
    apply List.map_congr_left
    intro r hr
    show dedent (stripEscapes (" " ++ display_run r true)) = display_run r false
    rw [stripEscapes_append " " _ (by decide),
      stripEscapes_display_run r (h3 r hr), dedent_space]
    exact dedent_of_head_ne_space _ (display_run_false_head_ne_space r)

theorem flatMap_tab_lines (ts : List Tab) (h : ∀ t ∈ ts, TabClean t) :
    (ts.flatMap tab_lines_colorized).map (fun l => dedent (stripEscapes l))
      = ts.flatMap tab_lines_plain := by
  induction ts with
  | nil => simp
  | cons t ts ih =>
    simp only [List.flatMap_cons, List.map_append]
    rw [tab_lines_strip t (h t (by simp)),
      ih (fun t' ht' => h t' (by simp [ht']))]

theorem strip_head_line (name d cur : String) (hn : escFree name)
    (hd : escFree d) (hc : escFree cur) :
    stripEscapes ("\x1b[32;1m" ++ name ++ "\x1b[m" ++ " "
        ++ ("[Created " ++ "\x1b[35;1m" ++ d ++ "\x1b[m" ++ " ago]") ++ cur)
      = name ++ " " ++ "[Created " ++ d ++ " ago]" ++ cur := by
  have e : "\x1b[32;1m" ++ name ++ "\x1b[m" ++ " "
        ++ ("[Created " ++ "\x1b[35;1m" ++ d ++ "\x1b[m" ++ " ago]") ++ cur
      = "\x1b[32;1m" ++ (name ++ ("\x1b[m" ++ (" " ++ ("[Created "
          ++ ("\x1b[35;1m" ++ (d ++ ("\x1b[m" ++ (" ago]" ++ cur)))))))) := by
    simp only [String.append_assoc]
  rw [e, stripEscapes_green, stripEscapes_append name _ hn, stripEscapes_reset,
    stripEscapes_append " " _ (by decide),
    stripEscapes_append "[Created " _ (by decide), stripEscapes_magenta,
    stripEscapes_append d _ hd, stripEscapes_reset,
    stripEscapes_append " ago]" _ (by decide), stripEscapes_of_escFree cur hc]
  simp only [String.append_assoc]

/-- Claim C3 (amended): for every session, the plain renderer's output matches
the colorized renderer's output line for line after stripping escape
sequences, except that the colorized renderer appends one trailing blank line
(the inter-session separator, absent from the plain renderer), wraps the
Created annotation of the head line in square brackets, and indents the
tab-notice and command lines that the plain renderer leaves unindented. -/
theorem plain_vs_colorized_renderers (fd : Nat → String) (s : Session)
    (hname : escFree s.name) (hfd : escFree (fd s.timestamp))
    (htabs : ∀ t ∈ s.tabs, TabClean t) :
    (print_session fd s).length = (print_unformatted_session fd s).length + 1
    ∧ (print_session fd s).getLast? = some ""
    ∧ (print_session fd s).head?.map stripEscapes
        = some (s.name ++ " " ++ "[Created " ++ fd s.timestamp ++ " ago]"
            ++ (if s.is_current then " (current)" else ""))
    ∧ (print_unformatted_session fd s).head?
        = some (s.name ++ " " ++ "Created " ++ fd s.timestamp ++ " ago"
            ++ (if s.is_current then " (current)" else ""))
    ∧ ((print_session fd s).drop 1).dropLast.map
          (fun l => dedent (stripEscapes l))
        = (print_unformatted_session fd s).drop 1 := by
  have hcur : escFree (if s.is_current then " (current)" else "") := by
    cases s.is_current <;> simp <;> decide
  refine ⟨?_, ?_, ?_, ?_, ?_⟩
  · have hlen := congrArg List.length (flatMap_tab_lines s.tabs htabs)
    rw [List.length_map] at hlen
    cases hempty : s.tabs.isEmpty <;>
      simp [print_session, print_unformatted_session, hempty, hlen]
  · simp only [print_session]
    exact List.getLast?_concat _
  · simp only [print_session, List.cons_append, List.head?_cons,
      Option.map_some']
    rw [strip_head_line s.name (fd s.timestamp) _ hname hfd hcur]
  · simp only [print_unformatted_session, List.head?_cons]
    congr 1
    simp only [String.append_assoc]
  · cases hempty : s.tabs.isEmpty with
    | true =>
      have hstrip : dedent (stripEscapes "  No running commands")
          = "No running commands" := by
        rw [stripEscapes_of_escFree _ (by decide)]
        rfl
      simp [print_session, print_unformatted_session, hempty, hstrip]
    | false =>
      simp only [print_session, print_unformatted_session, hempty,
        Bool.false_eq_true, if_false, List.cons_append, List.drop_succ_cons,
        List.drop_zero, List.dropLast_concat]
      exact flatMap_tab_lines s.tabs htabs

/-- Claim C3 witness: the renderer correspondence at the concrete session
`wSession` with the concrete duration formatter `wFd`. -/
theorem plain_vs_colorized_renderers_witness :
    (print_session wFd wSession).length
        = (print_unformatted_session wFd wSession).length + 1
    ∧ (print_session wFd wSession).getLast? = some ""
    ∧ (print_session wFd wSession).head?.map stripEscapes
        = some (wSession.name ++ " " ++ "[Created " ++ wFd wSession.timestamp
            ++ " ago]" ++ (if wSession.is_current then " (current)" else ""))
    ∧ (print_unformatted_session wFd wSession).head?
        = some (wSession.name ++ " " ++ "Created " ++ wFd wSession.timestamp
            ++ " ago" ++ (if wSession.is_current then " (current)" else ""))
    ∧ ((print_session wFd wSession).drop 1).dropLast.map
          (fun l => dedent (stripEscapes l))
        = (print_unformatted_session wFd wSession).drop 1 :=
  plain_vs_colorized_renderers wFd wSession (by decide) (by decide)
    (by decide)

/-- Claim C3 counterexample: the plain renderer's output is not the colorized
renderer's output with escapes and indentation stripped — already for a single
tabless session the colorized output has one more line (its trailing blank
separator), besides the bracketed Created annotation. -/
theorem plain_not_strip_of_colorized_cx :
    ¬ plainIsStrippedColorized (fun _ => "0s")
        [{ name := "s", tabs := [], timestamp := 0,
           is_current := false, is_active := false }] := by
  intro h
  have hlen := congrArg List.length h
  simp [plainIsStrippedColorized, render_sessions_plain,
    render_sessions_colorized, print_session, print_unformatted_session]
    at hlen

end ZellijSessions
